import Mathlib

/-!
# Verification of the jira-slack-bot message classifier and pending stores

Shallow embedding of the core of the repository:

* `message_parser.py` — `MessageParser`: keyword tables, environment/product
  detection, title/description splitting, URL extraction
  (`parse_message` and its helpers);
* `slack_helper.py` — the two pending stores and their operations
  (`handle_confirmation_reaction`, `create_ticket_with_url`,
  `cleanup_old_pending_requests`);
* `slack_message_handler.py` — the legacy `!bug` command path
  (`_remove_command_from_title`, `_respond_bug_command`).

Strings are embedded as `List Char` (Python `str` specialised to the ASCII
fragment the keyword tables and URL patterns live in; `str.lower`/`str.strip`
are modelled on the ASCII whitespace set).  Wall-clock timestamps
(`time.time()` floats) are embedded as exact rationals.
-/

namespace JiraSlackBot

/-- Embedded Python string: a list of characters. -/
abbrev Str := List Char

/-- ASCII whitespace, the characters stripped by Python `str.strip()` and
matched by the regex class `\s` (restricted to ASCII). -/
def isSpaceChar (c : Char) : Bool :=
  c = ' ' || c = '\t' || c = '\n' || c = '\r' || c = '\x0b' || c = '\x0c'

/-- Python `str.lstrip()`. -/
def pyLstrip (s : Str) : Str := s.dropWhile isSpaceChar

/-- Python `str.rstrip()`. -/
def pyRstrip (s : Str) : Str := (s.reverse.dropWhile isSpaceChar).reverse

/-- Python `str.strip()` (no argument: strip whitespace at both ends). -/
def pyStrip (s : Str) : Str := pyRstrip (pyLstrip s)

/-- Python `str.strip(chars)`: strip any of the given characters from both
ends.  Used by `split_title_description` with `'.,!?;: '`. -/
def pyStripChars (cs : List Char) (s : Str) : Str :=
  ((s.dropWhile (cs.contains ·)).reverse.dropWhile (cs.contains ·)).reverse

/-- The punctuation set of `title.strip('.,!?;: ')` in
`MessageParser.split_title_description`. -/
def titlePunct : List Char := ['.', ',', '!', '?', ';', ':', ' ']

/-- Python `str.lower()` (ASCII case folding). -/
def pyLower (s : Str) : Str := s.map Char.toLower

/-- Python `needle in haystack` for strings: substring occurrence.
(Python's `"" in s` is `True`; this matches: `[].isPrefixOf` holds.) -/
def occursIn (pat : Str) : Str → Bool
  | [] => pat.isEmpty
  | c :: rest => pat.isPrefixOf (c :: rest) || occursIn pat rest

/-- `MessageParser.ENVIRONMENT_KEYWORDS`, in dict insertion order
(Python dicts iterate in insertion order). -/
def ENVIRONMENT_KEYWORDS : List (Str × Str) :=
  [("prod".toList, "Prod".toList),
   ("production".toList, "Prod".toList),
   ("live".toList, "Prod".toList),
   ("dev".toList, "Dev".toList),
   ("development".toList, "Dev".toList),
   ("develop".toList, "Dev".toList),
   ("stage".toList, "Stage".toList),
   ("staging".toList, "Stage".toList),
   ("test".toList, "Stage".toList),
   ("testing".toList, "Stage".toList)]

/-- `MessageParser.PRODUCT_KEYWORDS`, in dict insertion order. -/
def PRODUCT_KEYWORDS : List (Str × Str) :=
  [("dataloader".toList, "Dataloader AI".toList),
   ("data loader".toList, "Dataloader AI".toList),
   ("data-loader".toList, "Dataloader AI".toList),
   ("clientell".toList, "Clientell AI".toList),
   ("client-ell".toList, "Clientell AI".toList),
   ("ai".toList, "Clientell AI".toList),
   ("other".toList, "Other".toList)]

/-- `MessageParser.DEFAULT_ENVIRONMENT`. -/
def DEFAULT_ENVIRONMENT : Str := "Prod".toList

/-- `MessageParser.DEFAULT_PRODUCT`. -/
def DEFAULT_PRODUCT : Str := "Clientell AI".toList

/-- `MessageParser.detect_environment`: first keyword of the table occurring
in the lowercased text wins; default when text is empty or no keyword
occurs. -/
def detect_environment (text : Str) : Str :=
  if text.isEmpty then DEFAULT_ENVIRONMENT
  else
    match ENVIRONMENT_KEYWORDS.find? (fun p => occursIn p.1 (pyLower text)) with
    | some p => p.2
    | none => DEFAULT_ENVIRONMENT

/-- `MessageParser.detect_product`: same scheme over `PRODUCT_KEYWORDS`. -/
def detect_product (text : Str) : Str :=
  if text.isEmpty then DEFAULT_PRODUCT
  else
    match PRODUCT_KEYWORDS.find? (fun p => occursIn p.1 (pyLower text)) with
    | some p => p.2
    | none => DEFAULT_PRODUCT

/-- The regex search `re.search(r'\.(?:\s|$)', text)` of
`MessageParser.split_title_description`: index of the leftmost `'.'` that is
followed by a whitespace character or by the end of the string. -/
def findTerminatorAux : Str → Nat → Option Nat
  | [], _ => none
  | ['.'], i => some i
  | '.' :: c :: rest, i =>
    if isSpaceChar c then some i else findTerminatorAux (c :: rest) (i + 1)
  | _ :: rest, i => findTerminatorAux rest (i + 1)

/-- Position of the first sentence terminator, if any. -/
def findTerminator (s : Str) : Option Nat := findTerminatorAux s 0

/-- Python `str.split('\n')` (always returns at least one piece). -/
def splitOnNl : Str → List Str
  | [] => [[]]
  | '\n' :: rest => [] :: splitOnNl rest
  | c :: rest =>
    match splitOnNl rest with
    | [] => [[c]]
    | l :: ls => (c :: l) :: ls

/-- The fixed fallback title `"Bug Report"`. -/
def BUG_REPORT : Str := "Bug Report".toList

/-- `MessageParser.split_title_description`.  Mirrors the Python line by
line: empty text returns `("", "")` at once; otherwise the text is stripped,
split at the first terminator (`split_index = match.start() + 1`, title is
`text[:split_index-1].strip()`, description `text[split_index:].strip()`) or
at character 255 when no terminator exists; the title is stripped of
`'.,!?;: '`; when the stripped title is empty but the description is not,
the description's first line (truncated to 100) is promoted; a final
fallback yields `"Bug Report"`. -/
def split_title_description (text : Str) : Str × Str :=
  if text.isEmpty then ([], [])
  else
    let t := pyStrip text
    let p :=
      match findTerminator t with
      | some i => (pyStrip (t.take i), pyStrip (t.drop (i + 1)))
      | none =>
        if t.length ≤ 255 then (t, [])
        else (pyStrip (t.take 255), pyStrip (t.drop 255))
    let title0 := pyStripChars titlePunct p.1
    let q :=
      if title0.isEmpty && !p.2.isEmpty then
        let lines := splitOnNl p.2
        let l0 := lines.headD []
        (if l0.isEmpty then BUG_REPORT else l0.take 100,
         if lines.length > 1 then List.intercalate ['\n'] lines.tail else [])
      else (title0, p.2)
    if q.1.isEmpty then (BUG_REPORT, q.2) else q

/-- The character class `[a-f0-9-]` matched case-insensitively (so `A`–`F`
also match). -/
def isHexDashChar (c : Char) : Bool :=
  ('a' ≤ c && c ≤ 'f') || ('A' ≤ c && c ≤ 'F') || ('0' ≤ c && c ≤ '9') || c = '-'

/-- Case-insensitive character comparison (`re.IGNORECASE` on ASCII). -/
def charCaseEq (a b : Char) : Bool := a.toLower = b.toLower

/-- Does `pat` match case-insensitively at the start of `s`? -/
def ciPrefixMatch : Str → Str → Bool
  | [], _ => true
  | _ :: _, [] => false
  | p :: ps, c :: cs => charCaseEq p c && ciPrefixMatch ps cs

/-- `re.findall(pat + '[a-f0-9-]+', text, re.IGNORECASE)` for a literal
`pat`: leftmost non-overlapping matches, the `+` taken greedily, each match
reported as the original (case-preserved) slice of the text.  Structural
recursion on a fuel argument; every recursive call consumes at least one
character, so fuel `s.length` (as supplied by `scanPattern`) is enough. -/
def scanPatternF (pat : Str) : Nat → Str → List Str
  | 0, _ => []
  | _, [] => []
  | fuel + 1, c :: rest =>
    if ciPrefixMatch pat (c :: rest) then
      let after := (c :: rest).drop pat.length
      let run := after.takeWhile isHexDashChar
      if run.isEmpty then scanPatternF pat fuel rest
      else ((c :: rest).take pat.length ++ run) :: scanPatternF pat fuel (after.drop run.length)
    else scanPatternF pat fuel rest

/-- All matches of the pattern `pat ++ '[a-f0-9-]+'` in `s`. -/
def scanPattern (pat s : Str) : List Str := scanPatternF pat s.length s

/-- The three `share_patterns` literals of `MessageParser.extract_urls`. -/
def share_patterns : List Str :=
  ["https://app.clientell.ai/share/".toList,
   "https://dev.clientell.ai/share/".toList,
   "https://test.clientell.ai/share/".toList]

/-- The three `chat_patterns` literals of `MessageParser.extract_urls`. -/
def chat_patterns : List Str :=
  ["https://app.clientell.ai/chat/".toList,
   "https://dev.clientell.ai/chat/".toList,
   "https://test.clientell.ai/chat/".toList]

/-- `MessageParser.extract_urls`: run every pattern over the text, then
deduplicate each class.  (Python does `list(set(...))`, whose order is
unspecified; `List.dedup` keeps first occurrences and has the same
membership.)  First component: `share_urls`; second: `chat_urls`. -/
def extract_urls (text : Str) : List Str × List Str :=
  if text.isEmpty then ([], [])
  else
    let share := (share_patterns.map (fun p => scanPattern p text)).join
    let chat := (chat_patterns.map (fun p => scanPattern p text)).join
    (share.dedup, chat.dedup)

/-- The result dict of `MessageParser.parse_message` (attachment lists are
summarised by the file count, the only attachment datum `parse_message`'s
title logic reads). -/
structure ParsedReport where
  title : Str
  description : Str
  environment : Str
  product : Str
  share_urls : List Str
  chat_urls : List Str
  original_text : Str
deriving DecidableEq

/-- The f-string `f"Bug report with {len(...)} attachment(s)"`. -/
def attachmentTitle (n : Nat) : Str :=
  "Bug report with ".toList ++ (toString n).toList ++ " attachment(s)".toList

/-- `MessageParser.parse_message text slack_event`, with the Slack event
summarised by the number of files it carries (`numFiles = 0` embeds the
`slack_event=None` call used by the auto-detection path). -/
def parse_message (text : Str) (numFiles : Nat) : ParsedReport :=
  let urls := extract_urls text
  let environment := detect_environment text
  let product := detect_product text
  let td := split_title_description text
  let title :=
    if (pyStrip text).isEmpty && numFiles ≠ 0 then attachmentTitle numFiles
    else td.1
  { title := title
    description := td.2
    environment := environment
    product := product
    share_urls := urls.1
    chat_urls := urls.2
    original_text := text }

/-! ## Pending stores (`slack_helper.py`)

Python dicts are embedded as association lists with unique keys (dict key
uniqueness is carried as a `Nodup` hypothesis where a proof needs it).
`time.time()` values are embedded as rationals. -/

/-- Python `d[k]` / `k in d` read: the value stored under `k`, if any. -/
def dictGet {α : Type} (k : Str) : List (Str × α) → Option α
  | [] => none
  | (k', v) :: rest => if k' = k then some v else dictGet k rest

/-- Python `del d[k]`: drop the (unique) entry with key `k`. -/
def dictDel {α : Type} (k : Str) : List (Str × α) → List (Str × α)
  | [] => []
  | (k', v) :: rest => if k' = k then rest else (k', v) :: dictDel k rest

/-- An entry of `pending_confirmations` (see `ask_for_bug_confirmation`). -/
structure ConfirmationData where
  user_id : Str
  channel : Str
  original_message_ts : Str
  parsed_data : ParsedReport
  timestamp : ℚ
deriving DecidableEq

/-- An entry of `pending_url_requests` (see `ask_for_share_url_conversion`). -/
structure UrlRequestData where
  parsed_data : ParsedReport
  user_id : Str
  channel : Str
  original_message_ts : Str
  chat_url : Str
  timestamp : ℚ
  monitoring_active : Bool
deriving DecidableEq

/-- The `pending_confirmations` dict. -/
abbrev ConfStore := List (Str × ConfirmationData)

/-- The `pending_url_requests` dict. -/
abbrev UrlStore := List (Str × UrlRequestData)

/-- `slack_helper.handle_confirmation_reaction`, sequential semantics.
Returns the Python return value, the store after the call, and the
confirmation data handed to `process_confirmed_bug_report` (if any):
unknown key → `False`, store untouched, nothing processed; user mismatch →
`False`, store untouched, nothing processed; match → the entry is processed
and deleted and `True` is returned. -/
def handle_confirmation_reaction (store : ConfStore) (message_ts user_id : Str) :
    Bool × ConfStore × Option ConfirmationData :=
  match dictGet message_ts store with
  | none => (false, store, none)
  | some d =>
    if d.user_id ≠ user_id then (false, store, none)
    else (true, dictDel message_ts store, some d)

/-- `slack_helper.cleanup_old_pending_requests`: collect the keys of entries
older than 600 seconds in each store, then delete them one by one. -/
def cleanup_old_pending_requests (now : ℚ) (confs : ConfStore) (urls : UrlStore) :
    ConfStore × UrlStore :=
  let timeout : ℚ := 600
  let expired_confirmations :=
    (confs.filter (fun e => decide (now - e.2.timestamp > timeout))).map Prod.fst
  let confs' := expired_confirmations.foldl (fun st ts => dictDel ts st) confs
  let expired_url_requests :=
    (urls.filter (fun e => decide (now - e.2.timestamp > timeout))).map Prod.fst
  let urls' := expired_url_requests.foldl (fun st ts => dictDel ts st) urls
  (confs', urls')

/-! ## The `create_ticket_with_url` race (`slack_helper.py`)

`create_ticket_with_url(thread_ts)` runs, in order:

1. `if thread_ts not in pending_url_requests: return`  (membership check)
2. read the entry, clear `monitoring_active`, call
   `create_ticket_immediately` (the ticket-creation invocation)
3. `del pending_url_requests[thread_ts]`  (a `KeyError` on an
   already-deleted key is swallowed by the `except` clause)

Two concurrent executions — the reply-detection path
(`handle_thread_response`) and the 5-minute timeout path
(`monitor_with_proper_timeout` inside `ask_for_share_url_conversion`) —
interleave these steps; `create_ticket_immediately` performs network I/O, so
steps of the two executions interleave freely.  The state below carries the
key's presence, the number of ticket-creation invocations, and each
execution's program counter. -/

/-- One step of a single `create_ticket_with_url` execution at program
counter `pc`; returns the new key-presence flag, invocation count and pc
(pc `3` = returned). -/
def createTicketStep (pending : Bool) (tickets : Nat) (pc : Nat) : Bool × Nat × Nat :=
  match pc with
  | 0 => if pending then (pending, tickets, 1) else (pending, tickets, 3)
  | 1 => (pending, tickets + 1, 2)
  | 2 => (false, tickets, 3)
  | _ => (pending, tickets, pc)

/-- Shared state of the two racing `create_ticket_with_url` executions for
one pending key. -/
structure RaceState where
  pending : Bool
  tickets : Nat
  pcReply : Nat
  pcTimeout : Nat
deriving DecidableEq

/-- Run one step of the chosen execution (`true` = reply-detection path,
`false` = timeout path). -/
def raceStep (s : RaceState) (replyTurn : Bool) : RaceState :=
  if replyTurn then
    let r := createTicketStep s.pending s.tickets s.pcReply
    { s with pending := r.1, tickets := r.2.1, pcReply := r.2.2 }
  else
    let r := createTicketStep s.pending s.tickets s.pcTimeout
    { s with pending := r.1, tickets := r.2.1, pcTimeout := r.2.2 }

/-- Run a whole interleaving schedule. -/
def runRace (sched : List Bool) (s : RaceState) : RaceState := sched.foldl raceStep s

/-- Initial state: the key is pending, no ticket created, both executions at
their membership check. -/
def raceInit : RaceState := ⟨true, 0, 0, 0⟩

/-! ## Legacy `!bug` command (`slack_message_handler.py`) -/

/-- Python `str.replace(pat, repl)`: replace every non-overlapping,
leftmost-first occurrence.  (For the empty pattern this embedding is the
identity; the source only uses the non-empty patterns `"!bug "` and
`"!bug"`.)  Structural recursion on fuel; every recursive call consumes at
least one character, so fuel `s.length` (supplied by `replaceAll`) is
enough. -/
def replaceAllF (pat repl : Str) : Nat → Str → Str
  | 0, s => s
  | _, [] => []
  | fuel + 1, c :: rest =>
    if ¬pat.isEmpty && pat.isPrefixOf (c :: rest) then
      repl ++ replaceAllF pat repl fuel ((c :: rest).drop pat.length)
    else c :: replaceAllF pat repl fuel rest

/-- Python `str.replace(pat, repl)`. -/
def replaceAll (pat repl s : Str) : Str := replaceAllF pat repl s.length s

/-- `slack_message_handler._remove_command_from_title`:
`text.replace(f"{command} ", "").replace(command, "").strip()`. -/
def remove_command_from_title (text command : Str) : Str :=
  pyStrip (replaceAll command [] (replaceAll (command ++ [' ']) [] text))

/-- Observable outcome of `_respond_bug_command`: either the usage-hint
reply is posted, or `jira_helper.create_bug` is called with the given
title. -/
inductive BugCommandOutcome where
  | usageHint
  | createTicket (title : Str)
deriving DecidableEq

/-- `slack_message_handler._respond_bug_command`: strip the command prefix;
an empty remaining title yields the usage hint and no ticket-creation call,
otherwise `create_bug` is called with the title. -/
def respond_bug_command (text : Str) : BugCommandOutcome :=
  let bug_title := remove_command_from_title text "!bug".toList
  if bug_title.isEmpty then .usageHint else .createTicket bug_title

/-! ## Association-list (dict) lemmas -/

section DictLemmas

variable {α : Type}

theorem dictGet_eq_none_of_not_mem (k : Str) :
    ∀ store : List (Str × α), k ∉ store.map Prod.fst → dictGet k store = none := by
  intro store
  induction store with
  | nil => intro _; rfl
  | cons e rest ih =>
    obtain ⟨k', v⟩ := e
    intro h
    simp only [List.map_cons, List.mem_cons] at h
    push_neg at h
    simp only [dictGet]
    rw [if_neg (fun hh : k' = k => h.1 hh.symm)]
    exact ih h.2

theorem dictDel_eq_filter (k : Str) :
    ∀ store : List (Str × α), (store.map Prod.fst).Nodup →
      dictDel k store = store.filter (fun e => decide (¬ e.1 = k)) := by
  intro store
  induction store with
  | nil => intro _; rfl
  | cons e rest ih =>
    obtain ⟨k', v⟩ := e
    intro h
    simp only [List.map_cons, List.nodup_cons] at h
    by_cases hk : k' = k
    · subst hk
      rw [show dictDel k' ((k', v) :: rest) = rest from by simp [dictDel]]
      rw [show List.filter (fun e => decide (¬ e.1 = k')) ((k', v) :: rest)
            = List.filter (fun e => decide (¬ e.1 = k')) rest from by simp]
      symm
      apply List.filter_eq_self.mpr
      intro a ha
      have hmem : a.1 ∈ rest.map Prod.fst := List.mem_map.mpr ⟨a, ha, rfl⟩
      have hne : ¬ a.1 = k' := fun hc => h.1 (hc ▸ hmem)
      simp [hne]
    · rw [show dictDel k ((k', v) :: rest) = (k', v) :: dictDel k rest from by
        simp [dictDel, hk]]
      rw [show List.filter (fun e => decide (¬ e.1 = k)) ((k', v) :: rest)
            = (k', v) :: List.filter (fun e => decide (¬ e.1 = k)) rest from by
        simp [List.filter_cons, hk]]
      exact congrArg (fun l => (k', v) :: l) (ih h.2)

theorem filter_keys_nodup (p : Str × α → Bool) (store : List (Str × α))
    (h : (store.map Prod.fst).Nodup) : ((store.filter p).map Prod.fst).Nodup :=
  ((List.filter_sublist (p := p) store).map Prod.fst).nodup h

theorem key_injective :
    ∀ store : List (Str × α), (store.map Prod.fst).Nodup →
      ∀ e ∈ store, ∀ e' ∈ store, e.1 = e'.1 → e = e' := by
  intro store
  induction store with
  | nil => intro _ e he; cases he
  | cons a rest ih =>
    intro h e he e' he' hk
    simp only [List.map_cons, List.nodup_cons] at h
    rcases List.mem_cons.mp he with h1 | h1
    · rcases List.mem_cons.mp he' with h2 | h2
      · rw [h1, h2]
      · exfalso
        apply h.1
        have hm : e'.1 ∈ rest.map Prod.fst := List.mem_map.mpr ⟨e', h2, rfl⟩
        have ha : a.1 = e'.1 := by rw [← h1]; exact hk
        rw [ha]
        exact hm
    · rcases List.mem_cons.mp he' with h2 | h2
      · exfalso
        apply h.1
        have hm : e.1 ∈ rest.map Prod.fst := List.mem_map.mpr ⟨e, h1, rfl⟩
        have ha : a.1 = e.1 := by rw [← h2]; exact hk.symm
        rw [ha]
        exact hm
      · exact ih h.2 e h1 e' h2 hk

theorem foldl_dictDel_eq_filter :
    ∀ (K : List Str) (store : List (Str × α)), (store.map Prod.fst).Nodup →
      K.foldl (fun st ts => dictDel ts st) store =
        store.filter (fun e => decide (e.1 ∉ K)) := by
  intro K
  induction K with
  | nil =>
    intro store _
    simp
  | cons k K' ih =>
    intro store h
    have hdel : dictDel k store = store.filter (fun e => decide (¬ e.1 = k)) :=
      dictDel_eq_filter k store h
    have hnodup : ((dictDel k store).map Prod.fst).Nodup := by
      rw [hdel]; exact filter_keys_nodup _ store h
    calc (k :: K').foldl (fun st ts => dictDel ts st) store
        = K'.foldl (fun st ts => dictDel ts st) (dictDel k store) := rfl
      _ = (dictDel k store).filter (fun e => decide (e.1 ∉ K')) := ih _ hnodup
      _ = (store.filter (fun e => decide (¬ e.1 = k))).filter
            (fun e => decide (e.1 ∉ K')) := by rw [hdel]
      _ = store.filter (fun e => decide (e.1 ∉ k :: K')) := by
            rw [List.filter_filter]
            apply List.filter_congr
            intro e _
            by_cases h1 : e.1 = k <;> by_cases h2 : e.1 ∈ K' <;>
              simp [h1, h2, List.mem_cons]

theorem dictGet_dictDel_self (k : Str) (store : List (Str × α))
    (h : (store.map Prod.fst).Nodup) : dictGet k (dictDel k store) = none := by
  rw [dictDel_eq_filter k store h]
  apply dictGet_eq_none_of_not_mem
  intro hmem
  rcases List.mem_map.mp hmem with ⟨e, he, hfst⟩
  have := (List.mem_filter.mp he).2
  simp only [decide_not, Bool.not_eq_true', decide_eq_false_iff_not] at this
  exact this hfst

theorem sweep_filter_eq {α : Type} (p : Str × α → Bool) (store : List (Str × α))
    (h : (store.map Prod.fst).Nodup) :
    ((store.filter p).map Prod.fst).foldl (fun st ts => dictDel ts st) store
      = store.filter (fun e => !p e) := by
  rw [foldl_dictDel_eq_filter _ store h]
  apply List.filter_congr
  intro e he
  by_cases hp : p e = true
  · have hmem : e.1 ∈ (store.filter p).map Prod.fst :=
      List.mem_map.mpr ⟨e, List.mem_filter.mpr ⟨he, hp⟩, rfl⟩
    simp [hmem, hp]
  · have hmem : e.1 ∉ (store.filter p).map Prod.fst := by
      intro hm
      rcases List.mem_map.mp hm with ⟨e', he', hfst⟩
      have h1 := (List.mem_filter.mp he').1
      have h2 := (List.mem_filter.mp he').2
      have hee : e' = e := key_injective store h e' h1 e he hfst
      rw [hee] at h2
      exact hp h2
    have hp' : p e = false := Bool.not_eq_true _ ▸ eq_false_of_ne_true hp
    simp [hmem, hp']

end DictLemmas

/-! ## Claim theorems -/

/-- C1: the claim asserts that `parse_message` returns a non-empty title for
every text input, the empty string included.  Evaluating the embedded code
at the failing input — empty text, no attachments — yields an **empty**
title: the early `return "", ""` of `split_title_description` on falsy text
bypasses the `"Bug Report"` fallback that the function's own comments
promise (`# Ensure title is not empty`). -/
theorem parse_message_empty_text_empty_title :
    (parse_message [] 0).title = [] := by decide

/-- C2: the claim asserts at-most-once ticket creation when the
reply-detection path and the timeout path race on one pending key.  In the
interleaving in which both executions of `create_ticket_with_url` pass the
`thread_ts not in pending_url_requests` check before either reaches the
`del` (schedule: reply-check, timeout-check, reply-create, timeout-create,
then the deletes), `create_ticket_immediately` is invoked twice. -/
theorem create_ticket_with_url_double_invocation :
    (runRace [true, false, true, false, true, false] raceInit).tickets = 2 := by decide

/-- C3: the take operation `handle_confirmation_reaction`: an absent key or
a non-matching user yields `False` with the store untouched and nothing
processed; a present key with matching user processes the entry, removes it
and yields `True`; hence a second identical call observes absence and
returns `False` — the data is handed out exactly once. -/
theorem handle_confirmation_reaction_take_spec :
    ∀ (store : ConfStore) (ts uid : Str),
      (dictGet ts store = none →
        handle_confirmation_reaction store ts uid = (false, store, none)) ∧
      (∀ d, dictGet ts store = some d → d.user_id ≠ uid →
        handle_confirmation_reaction store ts uid = (false, store, none)) ∧
      (∀ d, dictGet ts store = some d → d.user_id = uid →
        (store.map Prod.fst).Nodup →
        handle_confirmation_reaction store ts uid = (true, dictDel ts store, some d) ∧
        dictGet ts (dictDel ts store) = none ∧
        handle_confirmation_reaction (dictDel ts store) ts uid
          = (false, dictDel ts store, none)) := by
  intro store ts uid
  refine ⟨?_, ?_, ?_⟩
  · intro h
    simp [handle_confirmation_reaction, h]
  · intro d h hne
    simp [handle_confirmation_reaction, h, hne]
  · intro d h heq hnodup
    have habsent : dictGet ts (dictDel ts store) = none :=
      dictGet_dictDel_self ts store hnodup
    refine ⟨?_, habsent, ?_⟩
    · simp [handle_confirmation_reaction, h, heq]
    · simp [handle_confirmation_reaction, habsent]

/-- A concrete `ParsedReport` used by witness instantiations. -/
def demoReport : ParsedReport :=
  { title := "t".toList, description := [], environment := "Prod".toList,
    product := "Clientell AI".toList, share_urls := [], chat_urls := [],
    original_text := "t".toList }

/-- A concrete pending confirmation entry for the witness. -/
def demoConfData : ConfirmationData :=
  { user_id := "u".toList, channel := "c".toList, original_message_ts := "m".toList,
    parsed_data := demoReport, timestamp := 0 }

/-- Witness for C3 at a one-entry store: the matching take succeeds, and
the repeated call observes absence. -/
theorem handle_confirmation_reaction_take_spec_witness :
    handle_confirmation_reaction [("1".toList, demoConfData)] "1".toList "u".toList
      = (true, dictDel "1".toList [("1".toList, demoConfData)], some demoConfData) ∧
    dictGet "1".toList (dictDel "1".toList [("1".toList, demoConfData)]) = none ∧
    handle_confirmation_reaction (dictDel "1".toList [("1".toList, demoConfData)])
        "1".toList "u".toList
      = (false, dictDel "1".toList [("1".toList, demoConfData)], none) :=
  (handle_confirmation_reaction_take_spec [("1".toList, demoConfData)]
    "1".toList "u".toList).2.2 demoConfData (by decide) (by decide) (by decide)

/-- C6 counterexample: the claim's URL lives on `app.example.com`, but the
code's patterns match only `clientell.ai` hosts — on the text consisting of
exactly the claim's URL, both extracted categories are empty, so `direct`
does not contain the URL. -/
theorem extract_urls_example_domain_cex :
    extract_urls "https://app.example.com/share/123-456".toList = ([], []) := by decide

/-- C6 (amended): for the text consisting of exactly
`https://app.clientell.ai/share/123-456`, the direct category
(`share_urls`) holds exactly that URL and the indirect category
(`chat_urls`) is empty. -/
theorem extract_urls_clientell_share_exact :
    extract_urls "https://app.clientell.ai/share/123-456".toList
      = (["https://app.clientell.ai/share/123-456".toList], []) := by decide

/-- C8: on the exact input
`"Login not working in prod. The user dashboard is broken."`,
classification yields environment `Prod`, title
`"Login not working in prod"` and description
`"The user dashboard is broken."`. -/
theorem classify_login_prod_example :
    (parse_message "Login not working in prod. The user dashboard is broken.".toList 0).environment
      = "Prod".toList ∧
    (parse_message "Login not working in prod. The user dashboard is broken.".toList 0).title
      = "Login not working in prod".toList ∧
    (parse_message "Login not working in prod. The user dashboard is broken.".toList 0).description
      = "The user dashboard is broken.".toList := by decide

/-- C9: the `!bug` handler with an empty remaining title — in particular on
the exact input `"!bug "` — posts the usage hint and makes no
ticket-creation call (the outcome is never `createTicket`). -/
theorem respond_bug_command_empty_title_spec :
    respond_bug_command "!bug ".toList = .usageHint ∧
    (∀ text : Str, remove_command_from_title text "!bug".toList = [] →
      respond_bug_command text = .usageHint) ∧
    (∀ title : Str, BugCommandOutcome.usageHint ≠ BugCommandOutcome.createTicket title) := by
  refine ⟨by decide, ?_, ?_⟩
  · intro text h
    have h' : remove_command_from_title text ['!', 'b', 'u', 'g'] = [] := h
    simp [respond_bug_command, h']
  · intro title h
    cases h

/-- Witness for C9: the general empty-title clause applied at the concrete
input `"!bug "`. -/
theorem respond_bug_command_empty_title_spec_witness :
    respond_bug_command "!bug ".toList = .usageHint :=
  respond_bug_command_empty_title_spec.2.1 "!bug ".toList (by decide)

/-- C4 counterexample: on the text `"."` the first terminator sits at index
0 (well before character 255), the trimmed, punctuation-stripped prefix
before it is empty, and the returned title is the `"Bug Report"` fallback —
not that prefix, refuting the claim as stated. -/
theorem split_title_description_empty_prefix_cex :
    findTerminator (pyStrip ".".toList) = some 0 ∧ (0 : Nat) < 255 ∧
    (split_title_description ".".toList).1
      ≠ pyStripChars titlePunct (pyStrip ((pyStrip ".".toList).take 0)) := by decide

/-- C4 (amended): for every text whose stripped form has its first sentence
terminator at an index below 255, **provided the trimmed,
punctuation-stripped prefix before that terminator is non-empty**, the
title equals that prefix and the description is the trimmed remainder after
the terminator. -/
theorem split_title_description_terminator_spec :
    ∀ (t : Str) (i : Nat), findTerminator (pyStrip t) = some i → i < 255 →
      pyStripChars titlePunct (pyStrip ((pyStrip t).take i)) ≠ [] →
      split_title_description t =
        (pyStripChars titlePunct (pyStrip ((pyStrip t).take i)),
         pyStrip ((pyStrip t).drop (i + 1))) := by
  intro t i hterm h255 htitle
  cases t with
  | nil =>
    have hnone : findTerminator (pyStrip ([] : Str)) = none := by decide
    rw [hnone] at hterm
    cases hterm
  | cons c cs =>
    have hfalse :
        (pyStripChars titlePunct (pyStrip ((pyStrip (c :: cs)).take i))).isEmpty = false :=
      List.isEmpty_eq_false.mpr htitle
    simp only [split_title_description, List.isEmpty_cons, Bool.false_eq_true,
      if_false, hterm, hfalse, Bool.false_and, List.isEmpty_eq_false]

/-- Witness for C4 at the reference input: terminator at index 25. -/
theorem split_title_description_terminator_spec_witness :
    split_title_description
        "Login not working in prod. The user dashboard is broken.".toList
      = (pyStripChars titlePunct (pyStrip ((pyStrip
            "Login not working in prod. The user dashboard is broken.".toList).take 25)),
         pyStrip ((pyStrip
            "Login not working in prod. The user dashboard is broken.".toList).drop 26)) :=
  split_title_description_terminator_spec _ 25 (by decide) (by decide) (by decide)

/-- C5: `detect_environment` always yields one of `Prod`, `Dev`, `Stage`;
when some table entry's keyword occurs in the lowercased text it returns
the value of the earliest such entry (table order is the tie-break, via
`List.find?` over the ordered table); and when no keyword occurs it
defaults to `Prod`. -/
theorem detect_environment_table_spec :
    (∀ t : Str, detect_environment t = "Prod".toList ∨ detect_environment t = "Dev".toList ∨
      detect_environment t = "Stage".toList) ∧
    (∀ (t : Str) (kv : Str × Str),
      ENVIRONMENT_KEYWORDS.find? (fun p => occursIn p.1 (pyLower t)) = some kv →
      detect_environment t = kv.2) ∧
    (∀ t : Str, (∀ kv ∈ ENVIRONMENT_KEYWORDS, occursIn kv.1 (pyLower t) = false) →
      detect_environment t = "Prod".toList) := by
  have hsome : ∀ (t : Str) (kv : Str × Str),
      ENVIRONMENT_KEYWORDS.find? (fun p => occursIn p.1 (pyLower t)) = some kv →
      detect_environment t = kv.2 := by
    intro t kv h
    cases hb : t.isEmpty with
    | true =>
      rw [List.isEmpty_iff.mp hb] at h
      have hnone :
          ENVIRONMENT_KEYWORDS.find? (fun p => occursIn p.1 (pyLower ([] : Str))) = none := by
        decide
      rw [hnone] at h
      cases h
    | false =>
      simp [detect_environment, hb, h]
  refine ⟨?_, hsome, ?_⟩
  · intro t
    cases hf : ENVIRONMENT_KEYWORDS.find? (fun p => occursIn p.1 (pyLower t)) with
    | none =>
      left
      cases hb : t.isEmpty with
      | true => simp [detect_environment, hb, DEFAULT_ENVIRONMENT]
      | false => simp [detect_environment, hb, hf, DEFAULT_ENVIRONMENT]
    | some kv =>
      have hkv : kv ∈ ENVIRONMENT_KEYWORDS := List.mem_of_find?_eq_some hf
      have hvals : ∀ x ∈ ENVIRONMENT_KEYWORDS,
          x.2 = "Prod".toList ∨ x.2 = "Dev".toList ∨ x.2 = "Stage".toList := by decide
      rw [hsome t kv hf]
      exact hvals kv hkv
  · intro t hall
    have hnone : ENVIRONMENT_KEYWORDS.find? (fun p => occursIn p.1 (pyLower t)) = none :=
      List.find?_eq_none.mpr (fun x hx => by simp [hall x hx])
    cases hb : t.isEmpty with
    | true => simp [detect_environment, hb, DEFAULT_ENVIRONMENT]
    | false => simp [detect_environment, hb, hnone, DEFAULT_ENVIRONMENT]

/-- Witness for C5: on `"use staging"` the earliest matching table entry is
`("staging", "Stage")` (the earlier `"stage"` entry does not occur in
`"staging"`), so the result is `Stage`. -/
theorem detect_environment_table_spec_witness :
    detect_environment "use staging".toList = "Stage".toList :=
  detect_environment_table_spec.2.1 "use staging".toList
    ("staging".toList, "Stage".toList) (by decide)

/-- C7: the sweep removes from both pending stores exactly the entries
whose age strictly exceeds the 600-second window — the survivors are
precisely the entries at most 600 seconds old, kept unchanged and in
order. -/
theorem cleanup_old_pending_requests_spec :
    ∀ (now : ℚ) (confs : ConfStore) (urls : UrlStore),
      (confs.map Prod.fst).Nodup → (urls.map Prod.fst).Nodup →
      cleanup_old_pending_requests now confs urls =
        (confs.filter (fun e => decide (now - e.2.timestamp ≤ 600)),
         urls.filter (fun e => decide (now - e.2.timestamp ≤ 600))) := by
  intro now confs urls h1 h2
  have e1 := sweep_filter_eq
    (fun e : Str × ConfirmationData => decide (now - e.2.timestamp > 600)) confs h1
  have e2 := sweep_filter_eq
    (fun e : Str × UrlRequestData => decide (now - e.2.timestamp > 600)) urls h2
  simp only [cleanup_old_pending_requests]
  rw [e1, e2]
  have key : ∀ x : ℚ, (!decide (now - x > 600)) = decide (now - x ≤ 600) := by
    intro x
    rw [← decide_not]
    exact decide_eq_decide.mpr not_lt
  have f1 : confs.filter (fun e => !decide (now - e.2.timestamp > 600))
      = confs.filter (fun e => decide (now - e.2.timestamp ≤ 600)) :=
    List.filter_congr (fun e _ => key e.2.timestamp)
  have f2 : urls.filter (fun e => !decide (now - e.2.timestamp > 600))
      = urls.filter (fun e => decide (now - e.2.timestamp ≤ 600)) :=
    List.filter_congr (fun e _ => key e.2.timestamp)
  rw [f1, f2]

/-- A concrete pending URL request for the witnesses. -/
def demoUrlData : UrlRequestData :=
  { parsed_data := demoReport, user_id := "u".toList, channel := "c".toList,
    original_message_ts := "m".toList, chat_url := "x".toList, timestamp := 350,
    monitoring_active := true }

/-- Witness for C7 at `now = 1000` on concrete stores (ages 900, 500 and
650 seconds). -/
theorem cleanup_old_pending_requests_spec_witness :
    cleanup_old_pending_requests 1000
        [("a".toList, { demoConfData with timestamp := 100 }),
         ("b".toList, { demoConfData with timestamp := 500 })]
        [("c".toList, demoUrlData)]
      = ([("a".toList, { demoConfData with timestamp := 100 }),
          ("b".toList, { demoConfData with timestamp := 500 })].filter
            (fun e => decide ((1000 : ℚ) - e.2.timestamp ≤ 600)),
         [("c".toList, demoUrlData)].filter
            (fun e => decide ((1000 : ℚ) - e.2.timestamp ≤ 600))) :=
  cleanup_old_pending_requests_spec 1000 _ _ (by decide) (by decide)

/-- C10: product keyword matching has no word boundaries — whenever the
lowercased text contains `"ai"` as a bare substring (e.g. inside "email")
and none of the five earlier table keywords occurs, `detect_product`
returns `"Clientell AI"`. -/
theorem detect_product_ai_substring_spec :
    ∀ t : Str, occursIn "ai".toList (pyLower t) = true →
      occursIn "dataloader".toList (pyLower t) = false →
      occursIn "data loader".toList (pyLower t) = false →
      occursIn "data-loader".toList (pyLower t) = false →
      occursIn "clientell".toList (pyLower t) = false →
      occursIn "client-ell".toList (pyLower t) = false →
      detect_product t = "Clientell AI".toList := by
  intro t hai h1 h2 h3 h4 h5
  have ht : t.isEmpty = false := by
    cases t with
    | nil => exact absurd hai (by decide)
    | cons c cs => rfl
  have hfind : PRODUCT_KEYWORDS.find? (fun p => occursIn p.1 (pyLower t))
      = some ("ai".toList, "Clientell AI".toList) := by
    simp only [PRODUCT_KEYWORDS]
    rw [List.find?_cons_of_neg _ (by simpa using h1),
        List.find?_cons_of_neg _ (by simpa using h2),
        List.find?_cons_of_neg _ (by simpa using h3),
        List.find?_cons_of_neg _ (by simpa using h4),
        List.find?_cons_of_neg _ (by simpa using h5),
        List.find?_cons_of_pos _ (by simpa using hai)]
  simp [detect_product, ht, hfind]

/-- Witness for C10: `"email"` contains `"ai"` and none of the earlier
keywords. -/
theorem detect_product_ai_substring_spec_witness :
    detect_product "email".toList = "Clientell AI".toList :=
  detect_product_ai_substring_spec "email".toList (by decide) (by decide) (by decide)
    (by decide) (by decide) (by decide)

end JiraSlackBot
